import Mathlib

/-!
Verification development for the Oracul news-aggregation platform.

Shallow embedding of the Python source in Lean 4.  Pure functions of the
repository (text utilities, deduplication similarity, pagination logic,
classifier fallback, sentiment thresholding, rate limiting, analytics
aggregation, crawl scheduling) are translated into executable Lean
definitions; stateful code is modelled by explicit state passing.  Python
exceptions are modelled with `Except`/`Option`, Python floats with `ℚ`,
Python ints with `ℤ`/`ℕ`.
-/

namespace Oracul

/-! ## Python string primitives

Character classes used by the regexes in the source
(`\s`, `\w`, `\d`), modelled over the ASCII range that the
repository's regexes rely on. -/

/-- Python `\s` (ASCII): space, tab, newline, carriage return,
vertical tab, form feed. -/
def isPySpace (c : Char) : Bool :=
  c = ' ' || c = '\t' || c = '\n' || c = '\r' || c = '\x0b' || c = '\x0c'

/-- Python `\w` (ASCII): alphanumeric or underscore. -/
def isPyWord (c : Char) : Bool :=
  c.isAlphanum || c = '_'

/-- Python `str.lower` on a character (ASCII case folding). -/
def pyLowerChar (c : Char) : Char := c.toLower

/-- Python `str.strip()` from the left on a character list. -/
def stripLeft (cs : List Char) : List Char := cs.dropWhile isPySpace

/-- Python `str.strip()`: drop leading and trailing whitespace. -/
def stripChars (cs : List Char) : List Char :=
  ((stripLeft cs).reverse.dropWhile isPySpace).reverse

/-- Accumulating scanner for Python `str.split()` (no separator):
`cur` is the current token, reversed. -/
def splitWsGo (cur : List Char) : List Char → List (List Char)
  | [] => if cur.isEmpty then [] else [cur.reverse]
  | c :: rest =>
    if isPySpace c then
      if cur.isEmpty then splitWsGo [] rest
      else cur.reverse :: splitWsGo [] rest
    else splitWsGo (c :: cur) rest

/-- Python `str.split()` (no separator): split on whitespace runs,
discarding empty fields. -/
def splitWsChars (cs : List Char) : List (List Char) := splitWsGo [] cs

/-- Scanner for `re.sub(r'\s+', ' ', text)`: `prevSpace` records
whether the previous character belonged to a whitespace run. -/
def collapseWsGo (prevSpace : Bool) : List Char → List Char
  | [] => []
  | c :: rest =>
    if isPySpace c then
      if prevSpace then collapseWsGo true rest
      else ' ' :: collapseWsGo true rest
    else c :: collapseWsGo false rest

/-- Model of `re.sub(r'\s+', ' ', text)`: collapse each whitespace run to a
single space. -/
def collapseWs (cs : List Char) : List Char := collapseWsGo false cs

/-- Model of `re.sub(r'\s+', ' ', text).strip()`. -/
def normWs (cs : List Char) : List Char := stripChars (collapseWs cs)

/-- Whether the list starting here matches `https?://\S+` or `www\.\S+`
(the URL regex of the source), returning the length of the fixed head
when it does.  `\S+` requires at least one non-space character after
the head. -/
def urlHead (cs : List Char) : Option ℕ :=
  let try1 : List Char := ['h','t','t','p',':','/','/']
  let try2 : List Char := ['h','t','t','p','s',':','/','/']
  let try3 : List Char := ['w','w','w','.']
  let chk : List Char → Option ℕ := fun pre =>
    if pre.isPrefixOf cs then
      match cs.drop pre.length with
      | [] => none
      | d :: _ => if isPySpace d then none else some pre.length
    else none
  match chk try2 with
  | some n => some n
  | none =>
    match chk try1 with
    | some n => some n
    | none => chk try3

/-- Scanner for `re.sub(r'https?://\S+|www\.\S+', '', text)`: at each
position, if a URL pattern matches, the greedy `\S+` deletes through
the end of the current non-whitespace run (`skipping` consumes it). -/
def removeUrlsGo (skipping : Bool) : List Char → List Char
  | [] => []
  | c :: rest =>
    if skipping then
      if isPySpace c then c :: removeUrlsGo false rest
      else removeUrlsGo true rest
    else
      match urlHead (c :: rest) with
      | some _ => removeUrlsGo true rest
      | none => c :: removeUrlsGo false rest

/-- Model of `re.sub(r'https?://\S+|www\.\S+', '', text)`. -/
def removeUrls (cs : List Char) : List Char := removeUrlsGo false cs

/-- Whether a non-whitespace run (given as a character list with no
whitespace) matches `\S+@\S+\.\S+` when anchored at its start: it must
contain an `@` at index ≥ 1 and a `.` at least two positions after the
`@` and before the final character.  When it does, the greedy `\S+`
tail consumes the whole run. -/
def emailRun (run : List Char) : Bool :=
  let n := run.length
  (List.range n).any (fun a =>
    1 ≤ a && run.getD a ' ' = '@' &&
      (List.range n).any (fun d =>
        a + 2 ≤ d && d + 2 ≤ n && run.getD d ' ' = '.'))

/-- Scanner for `re.sub(r'\S+@\S+\.\S+', '', text)`: at each position,
if the non-whitespace run starting there matches the email pattern,
the whole run is deleted (all three `\S+` are greedy and the last one
extends to the end of the run; `skipping` consumes it). -/
def removeEmailsGo (skipping : Bool) : List Char → List Char
  | [] => []
  | c :: rest =>
    if skipping then
      if isPySpace c then c :: removeEmailsGo false rest
      else removeEmailsGo true rest
    else if isPySpace c then c :: removeEmailsGo false rest
    else if emailRun (c :: rest.takeWhile (fun d => !isPySpace d)) then
      removeEmailsGo true rest
    else c :: removeEmailsGo false rest

/-- Model of `re.sub(r'\S+@\S+\.\S+', '', text)`. -/
def removeEmails (cs : List Char) : List Char := removeEmailsGo false cs

/-- Model of `re.sub(r'[^\w\s]', ' ', text)`: replace every character that is
neither a word character nor whitespace by a space. -/
def specialToSpace (cs : List Char) : List Char :=
  cs.map (fun c => if isPyWord c || isPySpace c then c else ' ')

/-- Model of `re.sub(r'[^\w\s]', '', text)`: delete every character that is
neither a word character nor whitespace
(`remove_special_chars` in `text_utils.py` with `keep_punctuation=False`). -/
def dropSpecial (cs : List Char) : List Char :=
  cs.filter (fun c => isPyWord c || isPySpace c)

/-- Model of `re.sub(r'\d+', '', text)`: delete every digit. -/
def removeDigits (cs : List Char) : List Char :=
  cs.filter (fun c => !c.isDigit)

/-- Model of `DuplicateDetector._clean_text` / `Classifier._clean_text`
(identical code in both files): lowercase, remove URLs, remove emails,
replace special characters by spaces, remove digits, normalize
whitespace. -/
def cleanText (s : String) : String :=
  ⟨normWs (removeDigits (specialToSpace (removeEmails (removeUrls
    (s.toList.map pyLowerChar)))))⟩

/-- Python `str.strip().lower()` as used by `_check_exact_match`. -/
def pyStripLower (s : String) : String :=
  ⟨(stripChars s.toList).map pyLowerChar⟩

/-- Truthiness of an optional string field of a Python dict:
the key is present and the string is non-empty. -/
def optTruthy : Option String → Bool
  | none => false
  | some s => s ≠ ""

/-! ## Python numeric helpers -/

/-- Python `int(x)` on a float: truncation toward zero. -/
def pyTrunc (q : ℚ) : ℤ :=
  if q < 0 then -(⌊-q⌋) else ⌊q⌋

/-- Round half to even on a rational, modelling Python `round(x)`
on an exact value. -/
def roundHalfEven (q : ℚ) : ℤ :=
  let f := ⌊q⌋
  let frac := q - f
  if frac < 1/2 then f
  else if 1/2 < frac then f + 1
  else if f % 2 = 0 then f else f + 1

/-- Python `round(x, 2)` on an exact rational value. -/
def pyRound2 (q : ℚ) : ℚ :=
  (roundHalfEven (q * 100) : ℚ) / 100

/-! ## C1 / C2 — `CrawlerScheduler.crawl_source` scheduling

`SourceConfig` (`src/crawler/settings/sources_config.py`) is a plain
dataclass; its attributes are exactly the declared fields.  The
scheduler (`src/crawler/scheduler.py`) reads `source.config.interval`,
so attribute lookup is modelled explicitly. -/

/-- A value held by a `SourceConfig` attribute. -/
inductive PyVal where
  | int : ℤ → PyVal
  | str : String → PyVal
  | noneVal : PyVal
  deriving DecidableEq, Repr

/-- Model of `SourceConfig` dataclass fields, as declared in
`sources_config.py` (settings maps omitted; they carry no scheduling
data). -/
structure SourceConfig where
  name : String
  url : String
  srcType : String
  category : Option String := none
  update_interval : ℤ := 60
  active : Bool := true
  id : Option ℤ := none
  deriving DecidableEq, Repr

/-- Python attribute lookup on a `SourceConfig` dataclass instance:
`some` for a declared field, `none` (AttributeError) otherwise.  The
dataclass declares no `interval` attribute. -/
def SourceConfig.getattr (c : SourceConfig) : String → Option PyVal
  | "name" => some (.str c.name)
  | "url" => some (.str c.url)
  | "type" => some (.str c.srcType)
  | "category" => some (match c.category with | some s => .str s | none => .noneVal)
  | "update_interval" => some (.int c.update_interval)
  | "active" => some (.int (if c.active then 1 else 0))
  | "id" => some (match c.id with | some i => .int i | none => .noneVal)
  | _ => none

/-- Scheduler configuration (`CrawlerScheduler.__init__` defaults). -/
structure SchedCfg where
  default_interval : ℤ := 3600
  min_interval : ℤ := 300
  jitter : ℚ := 1/10
  deriving Repr

/-- Python exceptions surfaced by the embedded scheduler code. -/
inductive PyErr where
  | attributeError
  deriving DecidableEq, Repr

/-- Python truthiness of a `PyVal` (`x or y` semantics). -/
def PyVal.truthy : PyVal → Bool
  | .int n => n ≠ 0
  | .str s => s ≠ ""
  | .noneVal => false

/-- Model of `a or b` for `PyVal`/int default. -/
def pyOrInt (v : PyVal) (dflt : ℤ) : Except PyErr ℤ :=
  if v.truthy then
    match v with
    | .int n => .ok n
    | _ => .ok dflt
  else .ok dflt

/-- The success branch of `crawl_source` (scheduler.py lines 162-170):
`interval = source.config.interval or self.default_interval`, then
`max` with the floor, jitter scaling, and
`next_crawl_time = now + interval`.  `jf` is the sampled jitter factor
`1.0 + random.uniform(-jitter, jitter)`. -/
def crawlSuccessNext (sch : SchedCfg) (cfg : SourceConfig) (now : ℚ)
    (jf : ℚ) : Except PyErr ℚ := do
  let v ← match cfg.getattr "interval" with
    | some v => Except.ok v
    | none => Except.error PyErr.attributeError
  let i0 ← pyOrInt v sch.default_interval
  let i1 := max i0 sch.min_interval
  let i2 : ℤ := if 0 < sch.jitter then pyTrunc ((i1 : ℚ) * jf) else i1
  return now + (i2 : ℚ)

/-- The failure branch of `crawl_source` (scheduler.py line 186):
`retry_interval = min(source.config.interval or self.default_interval, 600)`,
then `next_crawl_time = now + retry_interval`. -/
def crawlFailureNext (sch : SchedCfg) (cfg : SourceConfig) (now : ℚ) :
    Except PyErr ℚ := do
  let v ← match cfg.getattr "interval" with
    | some v => Except.ok v
    | none => Except.error PyErr.attributeError
  let i0 ← pyOrInt v sch.default_interval
  return now + (min i0 600 : ℤ)

/-- The `next_crawl_time` recorded by one run of `crawl_source`
(scheduler.py lines 154-189).  `fetchOk` tells whether
`source.process()` returned normally.  An exception in the success
branch transfers control to the `except` clause, whose own
recomputation may raise again (uncaught, `next_crawl_time` then stays
unset — modelled by `Except.error`). -/
def crawlSourceNext (sch : SchedCfg) (cfg : SourceConfig)
    (fetchOk : Bool) (now : ℚ) (jf : ℚ) : Except PyErr ℚ :=
  if fetchOk then
    match crawlSuccessNext sch cfg now jf with
    | .ok t => .ok t
    | .error _ => crawlFailureNext sch cfg now
  else crawlFailureNext sch cfg now

/-- The default CNN source of `sources_config.py`. -/
def cnnSource : SourceConfig :=
  { name := "CNN"
    url := "http://rss.cnn.com/rss/edition.rss"
    srcType := "rss"
    category := some "news"
    update_interval := 30 }

/-! ## C3 — `APISource._check_has_more_pages` -/

/-- A decoded JSON response value (`api_source.py` works on the result
of `response.json()`; numbers are modelled as integers, which is all
the pagination arithmetic relies on). -/
inductive PyJson where
  | dict : List (String × PyJson) → PyJson
  | list : List PyJson → PyJson
  | int : ℤ → PyJson
  | bool : Bool → PyJson
  | str : String → PyJson
  | null : PyJson

/-- Python truthiness of a JSON value (`bool(next_page)`). -/
def PyJson.truthy : PyJson → Bool
  | .dict kvs => !kvs.isEmpty
  | .list xs => !xs.isEmpty
  | .int n => n ≠ 0
  | .bool b => b
  | .str s => s ≠ ""
  | .null => false

/-- Model of `isinstance(x, dict)`. -/
def PyJson.isDict : PyJson → Bool
  | .dict _ => true
  | _ => false

/-- Python `str.isdigit()` (ASCII): non-empty and all digits. -/
def strIsDigit (s : String) : Bool :=
  !s.isEmpty && s.toList.all (·.isDigit)

/-- Python `int(key)` on a digit-only string: decimal value. -/
def parseDigits (s : String) : ℕ :=
  s.toList.foldl (fun acc c => acc * 10 + (c.toNat - '0'.toNat)) 0

/-- One step of the dotted-path walk of `_check_has_more_pages` /
`_extract_field`: a digit key is converted to an int and used as a
list index (`key < len(value)`); otherwise the key is looked up in a
dict.  `none` models the `else: return ...` escape. -/
def walkStep (v : PyJson) (key : String) : Option PyJson :=
  if strIsDigit key then
    match v with
    | .list xs =>
      let n := parseDigits key
      if n < xs.length then xs.get? n else none
    | _ => none
  else
    match v with
    | .dict kvs => kvs.lookup key
    | _ => none

/-- Walk a full dotted-path path. -/
def walkPath (v : PyJson) : List String → Option PyJson
  | [] => some v
  | k :: ks =>
    match walkStep v k with
    | some v' => walkPath v' ks
    | none => none

/-- Accumulating splitter for `str.split('.')`. -/
def splitDotsGo (cur : List Char) : List Char → List String
  | [] => [⟨cur.reverse⟩]
  | c :: rest =>
    if c = '.' then (⟨cur.reverse⟩ : String) :: splitDotsGo [] rest
    else splitDotsGo (c :: cur) rest

/-- Model of `self.total_path.split('.')`: split on every dot, keeping empty
pieces (Python `str.split` with an explicit separator). -/
def splitDots (s : String) : List String := splitDotsGo [] s.toList

/-- Model of `total_pages = (total + page_size - 1) // page_size;
return current_page < total_pages`, inside the `try` of the
`total_path` branch: a non-numeric `total` raises `TypeError` and a
zero `page_size` raises `ZeroDivisionError`, both caught by the bare
`except` which returns `True`.  Python `bool` participates in the
arithmetic as `0`/`1`. -/
def totalPagesMore (total : PyJson) (pageSize currentPage : ℤ) : Bool :=
  match total with
  | .int n =>
    if pageSize = 0 then true
    else decide (currentPage < (n + pageSize - 1).fdiv pageSize)
  | .bool b =>
    if pageSize = 0 then true
    else decide (currentPage < ((if b then (1 : ℤ) else 0) + pageSize - 1).fdiv pageSize)
  | _ => true

/-- Pagination settings of `APISource.__init__`. -/
structure PaginationCfg where
  page_param : Option String := none
  page_size : ℤ := 10
  total_path : Option String := none
  next_page_path : Option String := none
  deriving Repr

/-- Model of `APISource._check_has_more_pages` (api_source.py lines 378-441). -/
def checkHasMorePages (pg : PaginationCfg) (responseData : PyJson)
    (currentPage itemsCount : ℤ) : Bool :=
  if !optTruthy pg.page_param then false
  else if itemsCount = 0 then false
  else if itemsCount < pg.page_size then false
  else if optTruthy pg.total_path && responseData.isDict then
    match walkPath responseData (splitDots (pg.total_path.getD "")) with
    | none => true
    | some total => totalPagesMore total pg.page_size currentPage
  else if optTruthy pg.next_page_path && responseData.isDict then
    match walkPath responseData (splitDots (pg.next_page_path.getD "")) with
    | none => false
    | some np => np.truthy
  else decide (itemsCount ≥ pg.page_size)

/-! ## C8 — `SentimentAnalyzer._analyze_with_vader` thresholding

The compound score itself comes from the external VADER library; the
repository's own logic is the thresholding below
(sentiment_analyzer.py lines 313-326). -/

/-- Map a VADER compound score to `(sentiment, confidence)`. -/
def analyzeWithVader (compound : ℚ) : String × ℚ :=
  let sentiment :=
    if compound ≥ 5/100 then "positive"
    else if compound ≤ -(5/100) then "negative"
    else "neutral"
  (sentiment, |compound|)

/-! ## Shared: Python stable `sorted(..., key=..., reverse=True)`

Python's `sorted` is stable; with `reverse=True` it orders by
descending key and keeps the original order of ties.  This is exactly
insertion sort with the relation `q.key ≤ p.key`. -/

/-- Stable descending sort by a rational score, second component. -/
def sortByScoreDesc {α : Type} (l : List (α × ℚ)) : List (α × ℚ) :=
  l.insertionSort (fun p q => q.2 ≤ p.2)

/-- Stable descending sort by a natural-number count, second component. -/
def sortByCountDesc {α : Type} (l : List (α × ℕ)) : List (α × ℕ) :=
  l.insertionSort (fun p q => q.2 ≤ p.2)

/-- Python `needle in hay` on strings: substring containment. -/
def substrB (needle hay : List Char) : Bool :=
  (List.range (hay.length + 1)).any (fun i => needle.isPrefixOf (hay.drop i))

/-- Scanner for the keys of a Python dict in insertion order: `seen`
holds the elements already emitted. -/
def dedupFirstGo (seen : List String) : List String → List String
  | [] => []
  | x :: l =>
    if x ∈ seen then dedupFirstGo seen l
    else x :: dedupFirstGo (x :: seen) l

/-- Keys of a Python dict in insertion order: first occurrence of each
distinct element. -/
def dedupFirst (l : List String) : List String := dedupFirstGo [] l

/-- Python `" ".join(parts)`. -/
def joinSpace : List String → String
  | [] => ""
  | [s] => s
  | s :: s2 :: rest => s ++ " " ++ joinSpace (s2 :: rest)

/-! ## C4 — `DuplicateDetector` exact and fuzzy strategies -/

/-- Model of `DuplicateDetector` configuration (defaults of `__init__`). -/
structure DedupCfg where
  similarity_threshold : ℚ := 8/10
  title_weight : ℚ := 6/10
  content_weight : ℚ := 4/10
  deriving Repr

/-- An article dict as seen by the duplicate detector.  `none` models
an absent field (`article.get(...)` default). -/
structure DedupArticle where
  id : ℤ := 0
  title : Option String := none
  content : Option String := none
  url : Option String := none
  deriving DecidableEq, Repr

/-- The candidate loop of `_check_exact_match`: `t`/`u` are the
incoming article's stripped-lowercased title/URL. -/
def checkExactGo (t u : String) : List DedupArticle → Bool × Option ℤ
  | [] => (false, none)
  | c :: rest =>
    if t ≠ "" && optTruthy c.title && t = pyStripLower (c.title.getD "") then
      (true, some c.id)
    else if u ≠ "" && optTruthy c.url && u = pyStripLower (c.url.getD "") then
      (true, some c.id)
    else checkExactGo t u rest

/-- Model of `DuplicateDetector._check_exact_match`
(duplicate_detector.py lines 183-218). -/
def checkExactMatch (a : DedupArticle) (candidates : List DedupArticle) :
    Bool × Option ℤ :=
  let t := pyStripLower (a.title.getD "")
  let u := pyStripLower (a.url.getD "")
  if t = "" && u = "" then (false, none)
  else checkExactGo t u candidates

/-- Model of `set(text.split())` over a cleaned text. -/
def wordFinset (s : String) : Finset String :=
  ((splitWsChars s.toList).map (fun cs => (⟨cs⟩ : String))).toFinset

/-- Model of `DuplicateDetector._calculate_text_similarity`
(duplicate_detector.py lines 374-408): Jaccard similarity of the word
sets of the cleaned texts. -/
def calcTextSimilarity (text1 text2 : String) : ℚ :=
  let c1 := cleanText text1
  let c2 := cleanText text2
  if c1 = "" || c2 = "" then 0
  else
    let w1 := wordFinset c1
    let w2 := wordFinset c2
    if w1 = ∅ || w2 = ∅ then 0
    else
      let inter := (w1 ∩ w2).card
      let uni := (w1 ∪ w2).card
      if uni = 0 then 0 else (inter : ℚ) / uni

/-- Model of `DuplicateDetector._calculate_similarity`
(duplicate_detector.py lines 330-372). -/
def calcSimilarity (cfg : DedupCfg) (title1 content1 title2 content2 : String) : ℚ :=
  let ts := if title1 ≠ "" && title2 ≠ "" then calcTextSimilarity title1 title2 else 0
  let cs := if content1 ≠ "" && content2 ≠ "" then calcTextSimilarity content1 content2 else 0
  if title1 ≠ "" && title2 ≠ "" && content1 ≠ "" && content2 ≠ "" then
    ts * cfg.title_weight + cs * cfg.content_weight
  else if title1 ≠ "" && title2 ≠ "" then ts
  else if content1 ≠ "" && content2 ≠ "" then cs
  else 0

/-- The candidate loop of `_check_fuzzy_match`, threading
`best_similarity` and `best_candidate_id`. -/
def checkFuzzyGo (cfg : DedupCfg) (title content : String)
    (best : ℚ) (bestId : Option ℤ) :
    List DedupArticle → ℚ × Option ℤ
  | [] => (best, bestId)
  | c :: rest =>
    let ct := c.title.getD ""
    let cc := c.content.getD ""
    if ct = "" && cc = "" then checkFuzzyGo cfg title content best bestId rest
    else
      let sim := calcSimilarity cfg title content ct cc
      if cfg.similarity_threshold < sim && best < sim then
        checkFuzzyGo cfg title content sim (some c.id) rest
      else checkFuzzyGo cfg title content best bestId rest

/-- Model of `DuplicateDetector._check_fuzzy_match`
(duplicate_detector.py lines 282-328).  The final
`if best_candidate_id:` is Python truthiness, so a best id of `0`
would not be reported. -/
def checkFuzzyMatch (cfg : DedupCfg) (a : DedupArticle)
    (candidates : List DedupArticle) : Bool × Option ℤ :=
  let title := a.title.getD ""
  let content := a.content.getD ""
  if title = "" && content = "" then (false, none)
  else
    match (checkFuzzyGo cfg title content 0 none candidates).2 with
    | some i => if i ≠ 0 then (true, some i) else (false, none)
    | none => (false, none)

/-! ## C5 — `AnalyticsRepository.get_category_distribution`

The database state relevant to this query is the set of articles and
the article–category association rows; an `ArticleRow`'s `categories`
lists the names of its associated categories (category names are
unique in the `Category` table). -/

/-- An article together with its associated category names. -/
structure ArticleRow where
  id : ℤ
  categories : List String
  deriving DecidableEq, Repr

/-- One entry of the category distribution. -/
structure CatDistEntry where
  category : String
  count : ℕ
  percentage : ℚ
  deriving DecidableEq, Repr

/-- Model of `AnalyticsRepository.get_category_distribution`
(repository.py lines 425-449): `total_count` counts all articles; the
grouped query counts join rows (article–category pairs) per category
name, ordered by descending count; `percentage` is
`round(count / total * 100, 2)`. -/
def getCategoryDistribution (arts : List ArticleRow) : List CatDistEntry :=
  let total := arts.length
  if total = 0 then []
  else
    let pairs := arts.flatMap (·.categories)
    let names := dedupFirst pairs
    let counts := names.map (fun c => (c, pairs.count c))
    (sortByCountDesc counts).map (fun p =>
      { category := p.1
        count := p.2
        percentage := pyRound2 ((p.2 : ℚ) / (total : ℚ) * 100) })

/-! ## C6 — `Classifier.process` fallback -/

/-- Model of `Classifier` configuration (defaults of `__init__`).  The TF-IDF
and neural strategies call external ML libraries; their availability
and outputs enter `classifyArticle` as explicit parameters. -/
structure ClassifierCfg where
  enabled : Bool := true
  override_existing : Bool := false
  min_content_length : ℕ := 100
  default_category : String := "general"
  min_confidence : ℚ := 1/2
  use_title : Bool := true
  use_content : Bool := true
  use_entities : Bool := true
  category_keywords : List (String × List String) := []
  deriving Repr

/-- An article dict as seen by the classifier pipeline stage.
`classification_confidence` is the
`metadata["classification_confidence"]` slot (`none` = key absent). -/
structure ProcArticle where
  title : Option String := none
  content : Option String := none
  categories : List String := []
  entityTexts : List String := []
  metadata_categories : List String := []
  classification_confidence : Option ℚ := none
  deriving DecidableEq, Repr

/-- Inner loop of Python `str.count` for a non-empty needle:
non-overlapping occurrences, scanning left to right. -/
def countSubGo (needle : List Char) : List Char → ℕ
  | [] => 0
  | c :: rest =>
    if needle.isPrefixOf (c :: rest) then
      1 + countSubGo needle (rest.drop (needle.length - 1))
    else countSubGo needle rest
termination_by l => l.length
decreasing_by
  all_goals simp only [List.length_cons]
  · exact Nat.lt_succ_of_le (List.drop_sublist _ _).length_le
  · omega

/-- Python `hay.count(needle)`: `len+1` for an empty needle, else
non-overlapping occurrences. -/
def countSub (needle hay : List Char) : ℕ :=
  if needle.isEmpty then hay.length + 1 else countSubGo needle hay

/-- Model of `Classifier._prepare_text` (classifier.py lines 325-357): title
three times, content, entity texts, joined and cleaned with the same
`_clean_text` as the duplicate detector. -/
def prepareText (cfg : ClassifierCfg) (a : ProcArticle) : String :=
  let parts :=
    (if cfg.use_title && optTruthy a.title then
      [a.title.getD "", a.title.getD "", a.title.getD ""] else []) ++
    (if cfg.use_content && optTruthy a.content then [a.content.getD ""] else []) ++
    (if cfg.use_entities && !a.entityTexts.isEmpty then a.entityTexts else [])
  cleanText (joinSpace parts)

/-- Model of `Classifier._classify_with_keywords` (classifier.py lines
389-454): per-category keyword-occurrence score normalised by list
size, 1.5× boost for metadata categories, stable descending sort, all
categories within 80% of the top score, confidence `min(top, 1.0)`. -/
def classifyWithKeywords (cfg : ClassifierCfg) (text : String)
    (a : ProcArticle) : List String × ℚ :=
  let scores0 := cfg.category_keywords.map (fun ck =>
    let s : ℚ := ((ck.2.map
      (fun k => (countSub (k.toList.map pyLowerChar) text.toList : ℚ))).sum)
    (ck.1, if ck.2.isEmpty then s else s / ck.2.length))
  let scores := a.metadata_categories.foldl
    (fun sc m => sc.map (fun p => if p.1 = m then (p.1, p.2 * (3/2)) else p))
    scores0
  match sortByScoreDesc scores with
  | [] => ([], 0)
  | top :: restSorted =>
    if top.2 = 0 then ([], 0)
    else
      let threshold := top.2 * (8/10)
      let topCats := ((top :: restSorted).filter
        (fun p => decide (threshold ≤ p.2))).map (·.1)
      (topCats, min top.2 1)

/-- Model of `Classifier._classify_article` (classifier.py lines 275-323).
`tfidfRes`/`neuralRes` are the outputs of the optional external-model
strategies when they ran (`none` = strategy disabled or model
unavailable). -/
def classifyArticle (cfg : ClassifierCfg) (a : ProcArticle)
    (tfidfRes neuralRes : Option (List String × ℚ)) : List String × ℚ :=
  let text := prepareText cfg a
  let kw := classifyWithKeywords cfg text a
  let addRes := fun (acc : List (List String × ℚ))
      (r : Option (List String × ℚ)) =>
    match r with
    | some cc => if !cc.1.isEmpty then acc ++ [cc] else acc
    | none => acc
  let results := addRes (addRes (if !kw.1.isEmpty then [kw] else []) tfidfRes) neuralRes
  match sortByScoreDesc results with
  | [] => ([cfg.default_category], 0)
  | top :: _ =>
    if top.2 < cfg.min_confidence then ([cfg.default_category], top.2)
    else (top.1, top.2)

/-- Model of `Classifier.process` (classifier.py lines 218-273). -/
def classifierProcess (cfg : ClassifierCfg) (a : ProcArticle)
    (tfidfRes neuralRes : Option (List String × ℚ)) : ProcArticle :=
  if !cfg.enabled then a
  else if !a.categories.isEmpty && !cfg.override_existing then a
  else if !optTruthy a.content && !optTruthy a.title then
    { a with categories := [cfg.default_category] }
  else if optTruthy a.content && (a.content.getD "").length < cfg.min_content_length
      && !optTruthy a.title then
    { a with categories := [cfg.default_category] }
  else
    let res := classifyArticle cfg a tfidfRes neuralRes
    if !res.1.isEmpty then
      { a with categories := res.1, classification_confidence := some res.2 }
    else { a with categories := [cfg.default_category] }

/-! ## C7 — `generate_summary` (`text_utils.py`) -/

/-- The splitter of `extract_sentences`:
`re.split(r'(?<=[.!?])\s+', text)`.  A split happens at each
whitespace run directly preceded by `.`, `!` or `?`; the run is the
separator. -/
def sentSplitGo (cur : List Char) (prevPunct : Bool) (sep : Bool) :
    List Char → List (List Char)
  | [] => [cur.reverse]
  | c :: rest =>
    if sep then
      if isPySpace c then sentSplitGo cur prevPunct true rest
      else sentSplitGo [c] (c = '.' || c = '!' || c = '?') false rest
    else if prevPunct && isPySpace c then
      cur.reverse :: sentSplitGo [] false true rest
    else sentSplitGo (c :: cur) (c = '.' || c = '!' || c = '?') false rest

/-- Model of `extract_sentences` (text_utils.py lines 249-268): split, strip
each piece, drop empties. -/
def extractSentences (text : String) : List String :=
  if text = "" then []
  else
    ((sentSplitGo [] false false text.toList).map
      (fun cs => (⟨stripChars cs⟩ : String))).filter (fun s => s ≠ "")

/-- Model of `extract_keywords` (text_utils.py lines 350-392): lowercase, drop
special characters, split, keep words of length ≥ `minWordLength`,
count frequencies in first-occurrence order, stable descending sort,
top `maxKeywords`. -/
def extractKeywords (text : String) (maxKeywords : ℕ := 10)
    (minWordLength : ℕ := 3) : List String :=
  if text = "" then []
  else
    let t := dropSpecial (text.toList.map pyLowerChar)
    let words := (splitWsChars t).map (fun cs => (⟨cs⟩ : String))
    let words := words.filter (fun w => decide (minWordLength ≤ w.length))
    let counts := (dedupFirst words).map (fun w => (w, words.count w))
    ((sortByCountDesc counts).take maxKeywords).map (·.1)

/-- Sentence score of `generate_summary`: number of keywords contained
(case-insensitive substring test), divided by the sentence's word
count when positive. -/
def sentenceScore (keywords : List String) (sentence : String) : ℚ :=
  let cnt := keywords.countP (fun k =>
    substrB (k.toList.map pyLowerChar) (sentence.toList.map pyLowerChar))
  let wc := (splitWsChars sentence.toList).length
  if 0 < wc then (cnt : ℚ) / wc else (cnt : ℚ)

/-- The `top_sentences` selection of `generate_summary`: stable
descending sort by score, first `maxSentences` sentences. -/
def topSentences (sentences keywords : List String) (maxSentences : ℕ) :
    List String :=
  ((sortByScoreDesc (sentences.map (fun s => (s, sentenceScore keywords s)))).take
    maxSentences).map (·.1)

/-- Model of `generate_summary` (text_utils.py lines 395-455). -/
def generateSummary (text : String) (maxSentences : ℕ := 3) : String :=
  if text = "" then ""
  else
    let sentences := extractSentences text
    if sentences.isEmpty then ""
    else if sentences.length ≤ maxSentences then
      joinSpace sentences
    else
      let keywords := extractKeywords text 20
      let top := topSentences sentences keywords maxSentences
      joinSpace (sentences.filter (fun s => decide (s ∈ top)))

/-! ## C9 / C10 — `RateLimiter.is_rate_limited` -/

/-- Result of one `is_rate_limited` call. -/
structure RLResult where
  limited : Bool
  retryAfter : Option ℤ
  deriving DecidableEq, Repr

/-- Model of `RateLimiter.is_rate_limited` (rate_limit.py lines 58-86) for one
client IP: filter out timestamps aged ≥ `timeWindow`, reject with
`max(1, int(window - (now - oldest)))` when the kept list has reached
`rateLimit`, otherwise append `now`.  The state is
`self.requests[ip]`; the filtered list is assigned back before the
limit check.  A `none` result models the `ValueError` of `min([])`
when `rateLimit` is `0` (state already filtered at that point). -/
def isRateLimited (rateLimit timeWindow : ℕ) (now : ℚ) (reqs : List ℚ) :
    Option RLResult × List ℚ :=
  let kept := reqs.filter (fun ts => decide (now - ts < (timeWindow : ℚ)))
  if rateLimit ≤ kept.length then
    match kept.min? with
    | some oldest =>
      (some ⟨true, some (max 1 (pyTrunc ((timeWindow : ℚ) - (now - oldest))))⟩, kept)
    | none => (none, kept)
  else (some ⟨false, none⟩, kept ++ [now])

/-- A sequence of `is_rate_limited` calls for one IP, threading the
per-IP timestamp list. -/
def runLimiter (rateLimit timeWindow : ℕ) (state : List ℚ) :
    List ℚ → List (Option RLResult) × List ℚ
  | [] => ([], state)
  | t :: ts =>
    let step := isRateLimited rateLimit timeWindow t state
    let rest := runLimiter rateLimit timeWindow step.2 ts
    (step.1 :: rest.1, rest.2)

/-! # Theorems -/

/-- C1: the spec claims that after `crawl_source` completes a
successful fetch, `next_crawl_time` lies in the jittered window
`[now + max(I, min_interval)·(1−J), now + max(I, min_interval)·(1+J)]`.
The code instead reads `source.config.interval`, an attribute the
`SourceConfig` dataclass does not define, so every run of
`crawl_source` raises `AttributeError` (the `except` clause re-raises
on the same attribute) and `next_crawl_time` is never recorded: for
every scheduler configuration, every source configuration (in
particular the default CNN source) and every jitter sample, the
success path of `crawl_source` ends in `AttributeError`. -/
theorem C1_next_crawl_time_never_recorded :
    (∀ (sch : SchedCfg) (cfg : SourceConfig) (now jf : ℚ),
      crawlSourceNext sch cfg true now jf = Except.error PyErr.attributeError) ∧
    crawlSourceNext {} cnnSource true 0 (11/10) = Except.error PyErr.attributeError := by
  exact ⟨fun sch cfg now jf => rfl, rfl⟩

/-- C2: the spec claims that after a fetch failure the next attempt is
scheduled within `min(configured_interval, 600)` seconds.  The code's
failure branch reads the same nonexistent `source.config.interval`
attribute, so it raises `AttributeError` before assigning the retry
`next_crawl_time`: for every scheduler configuration and every source
configuration (in particular a source configured with a 7200 s
interval), the failure path of `crawl_source` ends in
`AttributeError` and no retry time is recorded. -/
theorem C2_retry_time_never_recorded :
    (∀ (sch : SchedCfg) (cfg : SourceConfig) (now jf : ℚ),
      crawlSourceNext sch cfg false now jf = Except.error PyErr.attributeError) ∧
    crawlSourceNext {} { cnnSource with update_interval := 7200 } false 0 1 =
      Except.error PyErr.attributeError := by
  exact ⟨fun sch cfg now jf => rfl, rfl⟩

/-- C3: with pagination configured, a page holding exactly `page_size`
items whose `total_path` resolves to a total equal to `page_size`
(one full page, queried as the first page) yields no further pages;
and any non-zero item count strictly below `page_size` yields no
further pages, for every response and every `total_path`. -/
theorem C3_pagination_termination :
    (∀ (pg : PaginationCfg) (kvs : List (String × PyJson)) (cp : ℤ),
      optTruthy pg.page_param = true →
      optTruthy pg.total_path = true →
      walkPath (PyJson.dict kvs) (splitDots (pg.total_path.getD "")) =
        some (PyJson.int pg.page_size) →
      1 ≤ pg.page_size → 1 ≤ cp →
      checkHasMorePages pg (PyJson.dict kvs) cp pg.page_size = false) ∧
    (∀ (pg : PaginationCfg) (rd : PyJson) (cp n : ℤ),
      0 < n → n < pg.page_size →
      checkHasMorePages pg rd cp n = false) := by
  constructor
  · intro pg kvs cp hpp htp hwalk hps hcp
    have hfdiv : (pg.page_size + pg.page_size - 1).fdiv pg.page_size = 1 := by
      obtain ⟨n, hn⟩ : ∃ n : ℕ, pg.page_size = ((n + 1 : ℕ) : ℤ) :=
        ⟨(pg.page_size - 1).toNat, by omega⟩
      have h2 : pg.page_size + pg.page_size - 1 = ((2 * n + 1 : ℕ) : ℤ) := by
        rw [hn]; push_cast; ring
      have h3 : ((2 * n + 1 : ℕ) : ℤ).fdiv ((n + 1 : ℕ) : ℤ) =
          (((2 * n + 1) / (n + 1) : ℕ) : ℤ) := rfl
      have h4 : (2 * n + 1) / (n + 1) = 1 := by
        apply Nat.div_eq_of_lt_le <;> omega
      rw [h2, hn, h3, h4, Nat.cast_one]
    unfold checkHasMorePages
    rw [if_neg (by simp [hpp])]
    rw [if_neg (by omega : ¬ pg.page_size = 0)]
    rw [if_neg (by omega : ¬ pg.page_size < pg.page_size)]
    rw [if_pos (by simp [htp, PyJson.isDict])]
    simp only [hwalk, totalPagesMore]
    rw [if_neg (by omega : ¬ pg.page_size = 0), hfdiv]
    simp only [decide_eq_false_iff_not, not_lt]
    omega
  · intro pg rd cp n hn hlt
    unfold checkHasMorePages
    by_cases hpp : optTruthy pg.page_param
    · rw [if_neg (by simp [hpp]), if_neg (by omega), if_pos (by omega)]
    · rw [if_pos (by simp [hpp])]

/-- C3 witness: the first part at the NYT-style pagination
configuration `page_size = 10`, `total_path = "meta.total"`, a
response whose total is 10 and a full first page; the second part at
an item count of 7 on the same configuration. -/
theorem C3_pagination_termination_witness :
    checkHasMorePages
      { page_param := some "page", page_size := 10,
        total_path := some "meta.total" }
      (PyJson.dict [("meta", PyJson.dict [("total", PyJson.int 10)])]) 1 10 = false ∧
    checkHasMorePages
      { page_param := some "page", page_size := 10,
        total_path := some "meta.total" }
      (PyJson.dict [("meta", PyJson.dict [("total", PyJson.int 10)])]) 1 7 = false := by
  constructor
  · exact C3_pagination_termination.1
      { page_param := some "page", page_size := 10, total_path := some "meta.total" }
      [("meta", PyJson.dict [("total", PyJson.int 10)])] 1
      rfl rfl rfl (by norm_num) (by norm_num)
  · exact C3_pagination_termination.2
      { page_param := some "page", page_size := 10, total_path := some "meta.total" }
      (PyJson.dict [("meta", PyJson.dict [("total", PyJson.int 10)])]) 1 7
      (by norm_num) (by norm_num)

/-- C6 counterexample: an article with neither content nor title that
already carries a category is returned unchanged by
`Classifier.process` (the already-classified early return fires
first), so its categories are not `[default_category]`; moreover no
classification confidence is recorded for empty articles on any path.
This refutes the claim as stated. -/
theorem C6_counterexample :
    optTruthy ({ categories := ["sports"] } : ProcArticle).title = false ∧
    optTruthy ({ categories := ["sports"] } : ProcArticle).content = false ∧
    (classifierProcess {} { categories := ["sports"] } none none).categories =
      ["sports"] ∧
    (classifierProcess {} { categories := ["sports"] } none none).categories ≠
      ["general"] := by
  refine ⟨rfl, rfl, rfl, by decide⟩

/-- C6 amended: for every enabled configuration and every article with
neither content nor title and no pre-existing categories,
`Classifier.process` returns the article with categories exactly
`[default_category]`; no classification confidence is recorded (the
metadata slot is left untouched), because the empty-article branch
returns before `_classify_article` runs. -/
theorem C6_classifier_fallback :
    ∀ (cfg : ClassifierCfg) (a : ProcArticle)
      (tf nr : Option (List String × ℚ)),
      cfg.enabled = true →
      a.categories = [] →
      optTruthy a.title = false →
      optTruthy a.content = false →
      (classifierProcess cfg a tf nr).categories = [cfg.default_category] ∧
      (classifierProcess cfg a tf nr).classification_confidence =
        a.classification_confidence := by
  intro cfg a tf nr hen hcats ht hc
  simp only [classifierProcess, hen, hcats, ht, hc, Bool.not_true,
    Bool.not_false, List.isEmpty_nil, Bool.false_and, Bool.true_and,
    Bool.false_eq_true, if_false, if_true]
  exact ⟨trivial, trivial⟩

/-- C6 witness: the amended theorem applied to the default
configuration and the all-absent article. -/
theorem C6_classifier_fallback_witness :
    (classifierProcess {} {} none none).categories = ["general"] ∧
    (classifierProcess {} {} none none).classification_confidence = none :=
  C6_classifier_fallback {} {} none none rfl rfl rfl rfl

/-- C8: the VADER thresholding returns `positive` at a compound score
of exactly 0.05, `negative` at exactly −0.05, `neutral` on the open
interval (−0.05, 0.05), and in every case the confidence is the
absolute compound score. -/
theorem C8_sentiment_thresholds :
    analyzeWithVader (5/100) = ("positive", 5/100) ∧
    analyzeWithVader (-(5/100)) = ("negative", 5/100) ∧
    (∀ c : ℚ, -(5/100) < c → c < 5/100 →
      analyzeWithVader c = ("neutral", |c|)) ∧
    (∀ c : ℚ, (analyzeWithVader c).2 = |c|) := by
  refine ⟨?_, ?_, ?_, fun c => rfl⟩
  · simp only [analyzeWithVader, ge_iff_le, le_refl, if_true]
    norm_num [abs_of_pos]
  · simp only [analyzeWithVader]
    rw [if_neg (by norm_num), if_pos (by norm_num)]
    norm_num [abs_of_neg]
  · intro c h1 h2
    simp only [analyzeWithVader]
    rw [if_neg (by simpa using not_le.mpr h2), if_neg (by simpa using not_le.mpr (by linarith))]

/-- C8 witness: the neutral case applied at compound = 0.01. -/
theorem C8_sentiment_thresholds_witness :
    analyzeWithVader (1/100) = ("neutral", |(1/100 : ℚ)|) :=
  C8_sentiment_thresholds.2.2.1 (1/100) (by norm_num) (by norm_num)

/-- C10: a call to `is_rate_limited` that rejects the request leaves
the per-IP state equal to the filtered timestamp list (entries older
than the window removed, nothing appended), so rejected requests never
count toward the quota; only an accepted call appends its
timestamp. -/
theorem C10_rejected_requests_not_recorded :
    ∀ (rl tw : ℕ) (now : ℚ) (reqs : List ℚ),
      (∀ r, (isRateLimited rl tw now reqs).1 = some ⟨true, r⟩ →
        (isRateLimited rl tw now reqs).2 =
          reqs.filter (fun ts => decide (now - ts < (tw : ℚ))) ∧
        (isRateLimited rl tw now reqs).2.Sublist reqs) ∧
      ((isRateLimited rl tw now reqs).1 = some ⟨false, none⟩ →
        (isRateLimited rl tw now reqs).2 =
          reqs.filter (fun ts => decide (now - ts < (tw : ℚ))) ++ [now]) := by
  intro rl tw now reqs
  simp only [isRateLimited]
  by_cases hlen : rl ≤ (reqs.filter (fun ts => decide (now - ts < (tw : ℚ)))).length
  · rw [if_pos hlen]
    cases hmin : (reqs.filter (fun ts => decide (now - ts < (tw : ℚ)))).min? with
    | none => exact ⟨fun r h => by simp at h, fun h => by simp at h⟩
    | some oldest =>
      refine ⟨fun r _ => ⟨rfl, List.filter_sublist _⟩, fun h => by simp at h⟩
  · rw [if_neg hlen]
    exact ⟨fun r h => by simp at h, fun _ => rfl⟩

/-- C10 witness: with `rate_limit = 1` a second request at time 10
after one at time 5 is rejected and the state stays `[5]`; with
`rate_limit = 2` it is accepted and the state becomes `[5, 10]`. -/
theorem C10_rejected_requests_not_recorded_witness :
    ((isRateLimited 1 60 10 [5]).2 =
        [(5 : ℚ)].filter (fun ts => decide ((10 : ℚ) - ts < ((60 : ℕ) : ℚ))) ∧
      (isRateLimited 1 60 10 [5]).2.Sublist [5]) ∧
    (isRateLimited 2 60 10 [5]).2 =
      [(5 : ℚ)].filter (fun ts => decide ((10 : ℚ) - ts < ((60 : ℕ) : ℚ))) ++ [10] := by
  have hf : [(5 : ℚ)].filter (fun ts => decide ((10 : ℚ) - ts < ((60 : ℕ) : ℚ))) = [5] := by
    rw [List.filter_cons, List.filter_nil,
      if_pos (by rw [decide_eq_true_eq]; norm_num)]
  have htr : pyTrunc ((55 : ℚ)) = 55 := by
    rw [pyTrunc, if_neg (by norm_num)]
    norm_num
  constructor
  · refine (C10_rejected_requests_not_recorded 1 60 10 [5]).1 (some 55) ?_
    simp only [isRateLimited, hf]
    norm_num
    rw [htr]
    decide
  · refine (C10_rejected_requests_not_recorded 2 60 10 [5]).2 ?_
    simp only [isRateLimited, hf]
    norm_num

/-! ### C4 — deduplication helper lemmas -/

/-- If some candidate's stripped-lowercased title equals the incoming
article's non-empty stripped-lowercased title, the exact-match
candidate loop reports a duplicate. -/
theorem checkExactGo_of_title_match (t u : String)
    (cands : List DedupArticle) (cand : DedupArticle)
    (hm : cand ∈ cands) (ht : t ≠ "")
    (hct : optTruthy cand.title = true)
    (heq : t = pyStripLower (cand.title.getD "")) :
    (checkExactGo t u cands).1 = true := by
  induction cands with
  | nil => cases hm
  | cons c rest ih =>
    simp only [checkExactGo]
    split
    · rfl
    · split
      · rfl
      · rename_i hc1 _
        rcases List.mem_cons.mp hm with rfl | hmem
        · exact absurd (by simp [ht, hct, ← heq]) hc1
        · exact ih hmem

/-- Disjoint cleaned word sets give Jaccard text similarity 0. -/
theorem calcTextSimilarity_zero (t1 t2 : String)
    (h : wordFinset (cleanText t1) ∩ wordFinset (cleanText t2) = ∅) :
    calcTextSimilarity t1 t2 = 0 := by
  simp only [calcTextSimilarity]
  split
  · rfl
  · split
    · rfl
    · rw [h]
      simp only [Finset.card_empty, Nat.cast_zero, zero_div, ite_self]

/-- Disjoint title and content word sets give blended similarity 0. -/
theorem calcSimilarity_zero (cfg : DedupCfg) (t1 c1 t2 c2 : String)
    (ht : wordFinset (cleanText t1) ∩ wordFinset (cleanText t2) = ∅)
    (hc : wordFinset (cleanText c1) ∩ wordFinset (cleanText c2) = ∅) :
    calcSimilarity cfg t1 c1 t2 c2 = 0 := by
  have h1 := calcTextSimilarity_zero t1 t2 ht
  have h2 := calcTextSimilarity_zero c1 c2 hc
  simp only [calcSimilarity, h1, h2, ite_self]
  split
  · ring
  · rfl

/-- When every candidate's similarity is 0, the fuzzy loop never
updates its best candidate. -/
theorem checkFuzzyGo_zero (cfg : DedupCfg) (title content : String)
    (cands : List DedupArticle)
    (h : ∀ c ∈ cands,
      calcSimilarity cfg title content (c.title.getD "") (c.content.getD "") = 0) :
    checkFuzzyGo cfg title content 0 none cands = (0, none) := by
  induction cands with
  | nil => rfl
  | cons c rest ih =>
    simp only [checkFuzzyGo]
    split
    · exact ih (fun d hd => h d (List.mem_cons_of_mem c hd))
    · rw [h c (List.mem_cons_self c rest)]
      rw [if_neg (by simp)]
      exact ih (fun d hd => h d (List.mem_cons_of_mem c hd))

/-- Emptiness of the intersection of two word sets follows from
elementwise disjointness of the underlying word lists. -/
theorem wordFinset_inter_empty {x y : String}
    (hd : ∀ s ∈ (splitWsChars x.toList).map (fun cs => (⟨cs⟩ : String)),
      s ∉ (splitWsChars y.toList).map (fun cs => (⟨cs⟩ : String))) :
    wordFinset x ∩ wordFinset y = ∅ := by
  rw [Finset.eq_empty_iff_forall_not_mem]
  intro s hs
  rw [Finset.mem_inter] at hs
  simp only [wordFinset, List.mem_toFinset] at hs
  exact hd s hs.1 hs.2

/-- C4 counterexample: the incoming article titled `" "` and the
stored candidate titled `"\t"` have equal titles after lowercasing and
stripping (both become `""`), yet `_check_exact_match` does not flag a
duplicate (the cleaned title is falsy, and the URLs differ), refuting
the first half of the claim as stated. -/
theorem C4_counterexample :
    pyStripLower (({ id := 0, title := some " ", url := some "u1" } :
        DedupArticle).title.getD "") =
      pyStripLower (({ id := 5, title := some "\t", url := some "u2" } :
        DedupArticle).title.getD "") ∧
    checkExactMatch { id := 0, title := some " ", url := some "u1" }
      [{ id := 5, title := some "\t", url := some "u2" }] = (false, none) := by
  exact ⟨rfl, rfl⟩

/-- C4 amended: (i) when the incoming article's title and a stored
candidate's title are equal *and non-empty* after lowercasing and
stripping surrounding whitespace, the exact-match strategy flags a
duplicate (independently of the fuzzy and MinHash strategies, which
`_find_duplicate` only consults after `_check_exact_match`); (ii) for
every configuration and every pair whose cleaned title word sets and
cleaned content word sets are both disjoint (Jaccard 0 against every
candidate), the fuzzy strategy never reports a duplicate. -/
theorem C4_dedup_exactness :
    (∀ (a cand : DedupArticle) (cands : List DedupArticle),
      cand ∈ cands →
      pyStripLower (a.title.getD "") = pyStripLower (cand.title.getD "") →
      pyStripLower (a.title.getD "") ≠ "" →
      (checkExactMatch a cands).1 = true) ∧
    (∀ (cfg : DedupCfg) (a : DedupArticle) (cands : List DedupArticle),
      (∀ c ∈ cands,
        wordFinset (cleanText (a.title.getD "")) ∩
          wordFinset (cleanText (c.title.getD "")) = ∅ ∧
        wordFinset (cleanText (a.content.getD "")) ∩
          wordFinset (cleanText (c.content.getD "")) = ∅) →
      checkFuzzyMatch cfg a cands = (false, none)) := by
  constructor
  · intro a cand cands hm heq hne
    have hgd : cand.title.getD "" ≠ "" := by
      intro h0
      rw [h0] at heq
      exact hne heq
    have hct : optTruthy cand.title = true := by
      cases hc : cand.title with
      | none => rw [hc] at hgd; exact absurd rfl hgd
      | some s =>
        rw [hc] at hgd
        simp only [Option.getD_some] at hgd
        simp [optTruthy, hgd]
    simp only [checkExactMatch]
    rw [if_neg (by simp [hne])]
    exact checkExactGo_of_title_match _ _ cands cand hm hne hct heq
  · intro cfg a cands h
    simp only [checkFuzzyMatch]
    split
    · rfl
    · rw [checkFuzzyGo_zero cfg _ _ cands
        (fun c hc => calcSimilarity_zero cfg _ _ _ _ (h c hc).1 (h c hc).2)]

/-- C4 witness: the exact half at titles `"Foo "` and `" foo"`; the
fuzzy half at a pair sharing no words at all. -/
theorem C4_dedup_exactness_witness :
    (checkExactMatch { id := 0, title := some "Foo ", url := some "u1" }
      [{ id := 5, title := some " foo", url := some "u2" }]).1 = true ∧
    checkFuzzyMatch {} { id := 0, title := some "alpha", content := some "beta" }
      [{ id := 5, title := some "gamma", content := some "delta" }] =
      (false, none) := by
  constructor
  · exact C4_dedup_exactness.1
      { id := 0, title := some "Foo ", url := some "u1" }
      { id := 5, title := some " foo", url := some "u2" }
      [{ id := 5, title := some " foo", url := some "u2" }]
      (List.mem_cons_self _ _) rfl (by decide)
  · refine C4_dedup_exactness.2 {}
      { id := 0, title := some "alpha", content := some "beta" }
      [{ id := 5, title := some "gamma", content := some "delta" }] ?_
    intro c hc
    rcases List.mem_cons.mp hc with rfl | h0
    · exact ⟨wordFinset_inter_empty (by decide), wordFinset_inter_empty (by decide)⟩
    · cases h0

/-! ### C5 — category-distribution counting lemmas -/

/-- Membership in the first-occurrence deduplication. -/
theorem mem_dedupFirstGo {c : String} :
    ∀ (l seen : List String), c ∈ dedupFirstGo seen l ↔ c ∈ l ∧ c ∉ seen := by
  intro l
  induction l with
  | nil => intro seen; simp [dedupFirstGo]
  | cons x t ih =>
    intro seen
    simp only [dedupFirstGo]
    by_cases hx : x ∈ seen
    · rw [if_pos hx, ih]
      constructor
      · rintro ⟨h1, h2⟩; exact ⟨List.mem_cons_of_mem x h1, h2⟩
      · rintro ⟨h1, h2⟩
        rcases List.mem_cons.mp h1 with rfl | h1
        · exact absurd hx h2
        · exact ⟨h1, h2⟩
    · rw [if_neg hx]
      constructor
      · intro h1
        rcases List.mem_cons.mp h1 with rfl | h1
        · exact ⟨List.mem_cons_self _ _, hx⟩
        · rw [ih] at h1
          exact ⟨List.mem_cons_of_mem x h1.1,
            fun hs => h1.2 (List.mem_cons_of_mem x hs)⟩
      · rintro ⟨h1, h2⟩
        rcases List.mem_cons.mp h1 with rfl | h1
        · exact List.mem_cons_self _ _
        · by_cases hcx : c = x
          · subst hcx; exact List.mem_cons_self _ _
          · exact List.mem_cons_of_mem x
              ((ih (x :: seen)).mpr ⟨h1, by
                intro hm
                rcases List.mem_cons.mp hm with h | h
                · exact hcx h
                · exact h2 h⟩)

/-- Pointwise accounting: occurrences of `x` plus elements avoiding
`x :: seen` make up the elements avoiding `seen`. -/
theorem count_add_countP_cons (x : String) (seen : List String)
    (hx : x ∉ seen) :
    ∀ t : List String,
      t.count x + t.countP (fun y => decide (y ∉ x :: seen)) =
        t.countP (fun y => decide (y ∉ seen)) := by
  intro t
  induction t with
  | nil => rfl
  | cons y t ih =>
    rw [List.count_cons, List.countP_cons, List.countP_cons]
    by_cases hyx : y = x
    · subst hyx
      rw [if_pos (beq_self_eq_true y)]
      rw [if_neg (show ¬ (decide (y ∉ y :: seen)) = true by simp)]
      rw [if_pos (show (decide (y ∉ seen)) = true by simp [hx])]
      omega
    · rw [if_neg (show ¬ (y == x) = true by simp [hyx])]
      have h1 : (decide (y ∉ x :: seen)) = decide (y ∉ seen) := by
        simp [List.mem_cons, hyx]
      rw [h1]
      omega

/-- Summing per-key occurrence counts over the deduplicated key list
counts exactly the elements avoiding `seen`. -/
theorem sum_count_dedupFirstGo :
    ∀ (l seen : List String),
      ((dedupFirstGo seen l).map (fun c => l.count c)).sum =
        l.countP (fun y => decide (y ∉ seen)) := by
  intro l
  induction l with
  | nil => intro seen; rfl
  | cons x t ih =>
    intro seen
    simp only [dedupFirstGo]
    by_cases hx : x ∈ seen
    · rw [if_pos hx]
      have hmap : (dedupFirstGo seen t).map (fun c => (x :: t).count c) =
          (dedupFirstGo seen t).map (fun c => t.count c) := by
        apply List.map_congr_left
        intro c hc
        have hcs : c ∉ seen := ((mem_dedupFirstGo t seen).mp hc).2
        have hcx : (x == c) = false := by
          simp only [beq_eq_false_iff_ne]
          rintro rfl
          exact hcs hx
        rw [List.count_cons, hcx]
        simp
      rw [hmap, ih]
      rw [List.countP_cons]
      rw [if_neg (show ¬ (decide (x ∉ seen)) = true by simp [hx])]
      omega
    · rw [if_neg hx]
      simp only [List.map_cons, List.sum_cons]
      have hmap : (dedupFirstGo (x :: seen) t).map (fun c => (x :: t).count c) =
          (dedupFirstGo (x :: seen) t).map (fun c => t.count c) := by
        apply List.map_congr_left
        intro c hc
        have hcs : c ∉ x :: seen := ((mem_dedupFirstGo t (x :: seen)).mp hc).2
        have hcx : (x == c) = false := by
          simp only [beq_eq_false_iff_ne]
          rintro rfl
          exact hcs (List.mem_cons_self _ _)
        rw [List.count_cons, hcx]
        simp
      rw [hmap, ih]
      rw [List.count_cons, List.countP_cons]
      rw [if_pos (show (decide (x ∉ seen)) = true by simp [hx])]
      rw [if_pos (beq_self_eq_true x)]
      have h4 := count_add_countP_cons x seen hx t
      omega

/-- Summing per-key occurrence counts over all distinct keys gives the
total number of elements. -/
theorem sum_count_dedupFirst (l : List String) :
    ((dedupFirst l).map (fun c => l.count c)).sum = l.length := by
  rw [dedupFirst, sum_count_dedupFirstGo]
  have : (fun y : String => decide (y ∉ ([] : List String))) = fun _ => true := by
    funext y
    simp
  rw [this, List.countP_true]

/-- C5 counterexample: a database with a single article carrying two
categories.  The per-category counts sum to 2 while the total article
count is 1, refuting the sum half of the claim as stated. -/
theorem C5_counterexample :
    ((getCategoryDistribution [{ id := 1, categories := ["a", "b"] }]).map
      (·.count)).sum = 2 ∧
    ([{ id := 1, categories := ["a", "b"] }] : List ArticleRow).length = 1 := by
  exact ⟨rfl, rfl⟩

/-- C5 amended: the per-category counts returned by
`get_category_distribution` sum to the number of article–category
association pairs (which equals the article count exactly when every
article has exactly one category), and every returned entry's
percentage is `round(count / total × 100, 2)` with `total` the total
article count. -/
theorem C5_category_distribution :
    ∀ (arts : List ArticleRow),
      ((getCategoryDistribution arts).map (·.count)).sum =
        (arts.flatMap (·.categories)).length ∧
      ∀ e ∈ getCategoryDistribution arts,
        e.percentage = pyRound2 ((e.count : ℚ) / (arts.length : ℚ) * 100) := by
  intro arts
  constructor
  · by_cases h0 : arts.length = 0
    · have h1 : arts = [] := List.length_eq_zero.mp h0
      subst h1
      rfl
    · simp only [getCategoryDistribution, if_neg h0]
      have key : ∀ (l : List (String × ℕ)) (f : String × ℕ → CatDistEntry),
          (∀ p, (f p).count = p.2) →
          ((l.map f).map (fun e => e.count)).sum = (l.map (fun p => p.2)).sum := by
        intro l f hf
        induction l with
        | nil => rfl
        | cons p l ih => simp only [List.map_cons, List.sum_cons, ih, hf]
      rw [key _ _ (fun p => rfl)]
      have hperm : List.Perm
          (sortByCountDesc
            ((dedupFirst (arts.flatMap (·.categories))).map
              (fun c => (c, (arts.flatMap (·.categories)).count c))))
          ((dedupFirst (arts.flatMap (·.categories))).map
            (fun c => (c, (arts.flatMap (·.categories)).count c))) :=
        List.perm_insertionSort _ _
      rw [(hperm.map (fun p : String × ℕ => p.2)).sum_eq, List.map_map]
      exact sum_count_dedupFirst _
  · intro e he
    by_cases h0 : arts.length = 0
    · rw [getCategoryDistribution, if_pos h0] at he
      cases he
    · rw [getCategoryDistribution, if_neg h0] at he
      obtain ⟨p, _, rfl⟩ := List.mem_map.mp he
      rfl

/-- C5 witness: the amended theorem applied to a one-article,
one-category database; the returned entry has count 1 and percentage
`round(1/1 × 100, 2)`. -/
theorem C5_category_distribution_witness :
    ((getCategoryDistribution [{ id := 1, categories := ["a"] }]).map
      (·.count)).sum =
      (([{ id := 1, categories := ["a"] }] : List ArticleRow).flatMap
        (·.categories)).length ∧
    ({ category := "a", count := 1,
       percentage := pyRound2 ((((1 : ℕ) : ℚ)) / (((1 : ℕ) : ℚ)) * 100) } :
        CatDistEntry).percentage =
      pyRound2
        (((({ category := "a", count := 1,
              percentage := pyRound2 ((((1 : ℕ) : ℚ)) / (((1 : ℕ) : ℚ)) * 100) } :
            CatDistEntry).count : ℕ) : ℚ) /
          ((([{ id := 1, categories := ["a"] }] : List ArticleRow).length : ℕ) : ℚ) *
          100) := by
  constructor
  · exact (C5_category_distribution [{ id := 1, categories := ["a"] }]).1
  · exact (C5_category_distribution [{ id := 1, categories := ["a"] }]).2 _
      (List.mem_cons_self _ _)

/-! ### C9 — rate-limiter run lemmas -/

/-- Splitting a call sequence. -/
theorem runLimiter_append (rl tw : ℕ) (s : List ℚ) (l1 l2 : List ℚ) :
    runLimiter rl tw s (l1 ++ l2) =
      ((runLimiter rl tw s l1).1 ++
        (runLimiter rl tw (runLimiter rl tw s l1).2 l2).1,
       (runLimiter rl tw (runLimiter rl tw s l1).2 l2).2) := by
  induction l1 generalizing s with
  | nil => simp [runLimiter]
  | cons t ts ih =>
    simp only [List.cons_append, runLimiter, List.append_eq, ih]

/-- As long as the quota is not reached and every call falls within
the window of every recorded timestamp, each call is accepted and its
timestamp appended. -/
theorem runLimiter_all_accepted (rl tw : ℕ) :
    ∀ (rest pre : List ℚ),
      (∀ x ∈ pre ++ rest, ∀ y ∈ rest, y - x < (tw : ℚ)) →
      pre.length + rest.length ≤ rl →
      runLimiter rl tw pre rest =
        (List.replicate rest.length (some ⟨false, none⟩), pre ++ rest) := by
  intro rest
  induction rest with
  | nil => intro pre _ _; simp [runLimiter]
  | cons t ts ih =>
    intro pre hwin hlen
    have hkeep : pre.filter (fun x => decide (t - x < (tw : ℚ))) = pre := by
      apply List.filter_eq_self.mpr
      intro x hx
      exact decide_eq_true
        (hwin x (List.mem_append_left _ hx) t (List.mem_cons_self _ _))
    have hstep : isRateLimited rl tw t pre = (some ⟨false, none⟩, pre ++ [t]) := by
      simp only [isRateLimited, hkeep]
      rw [if_neg (show ¬ rl ≤ pre.length by
        simp only [List.length_cons] at hlen; omega)]
    have hwin' : ∀ x ∈ (pre ++ [t]) ++ ts, ∀ y ∈ ts, y - x < (tw : ℚ) := by
      intro x hx y hy
      rw [List.append_assoc, List.singleton_append] at hx
      exact hwin x hx y (List.mem_cons_of_mem t hy)
    have hlen' : (pre ++ [t]).length + ts.length ≤ rl := by
      simp only [List.length_append, List.length_singleton]
      simp only [List.length_cons] at hlen
      omega
    simp only [runLimiter, hstep, ih (pre ++ [t]) hwin' hlen',
      List.length_cons, List.replicate_succ, List.append_assoc,
      List.singleton_append]

/-- C9: with `rate_limit = 100` and `time_window = 60`, a client whose
101 calls all fall within one 60-second window has its first 100 calls
accepted and the 101st rejected with a Retry-After of at least 1. -/
theorem C9_rate_limiter_boundary :
    ∀ (ts : List ℚ), ts.length = 101 →
      (∀ x ∈ ts, ∀ y ∈ ts, y - x < ((60 : ℕ) : ℚ)) →
      ∃ r : ℤ, 1 ≤ r ∧
        (runLimiter 100 60 [] ts).1 =
          List.replicate 100 (some ⟨false, none⟩) ++ [some ⟨true, some r⟩] := by
  intro ts hlen hwin
  have hne : ts ≠ [] := by
    intro h
    rw [h] at hlen
    cases hlen
  obtain ⟨l, t, hts⟩ : ∃ l t, ts = l ++ [t] :=
    ⟨ts.dropLast, ts.getLast hne, (List.dropLast_append_getLast hne).symm⟩
  subst hts
  have hlen1 : l.length = 100 := by
    simp only [List.length_append, List.length_singleton] at hlen
    omega
  have hacc := runLimiter_all_accepted 100 60 l []
    (fun x hx y hy => hwin x (List.mem_append_left [t] (by simpa using hx))
      y (List.mem_append_left [t] hy))
    (by simp [hlen1])
  obtain ⟨a, l', rfl⟩ : ∃ a l', l = a :: l' := by
    cases l with
    | nil => cases hlen1
    | cons a l' => exact ⟨a, l', rfl⟩
  have hkeep : (a :: l').filter (fun x => decide (t - x < ((60 : ℕ) : ℚ))) = a :: l' := by
    apply List.filter_eq_self.mpr
    intro x hx
    exact decide_eq_true
      (hwin x (List.mem_append_left [t] hx) t
        (List.mem_append_right _ (List.mem_cons_self _ _)))
  refine ⟨max 1 (pyTrunc (((60 : ℕ) : ℚ) - (t - l'.foldl min a))),
    le_max_left _ _, ?_⟩
  have hstep : isRateLimited 100 60 t (a :: l') =
      (some ⟨true, some (max 1 (pyTrunc (((60 : ℕ) : ℚ) - (t - l'.foldl min a))))⟩,
        a :: l') := by
    simp only [isRateLimited, hkeep]
    rw [if_pos (show 100 ≤ (a :: l').length by rw [hlen1])]
    rfl
  rw [runLimiter_append]
  rw [hacc]
  simp only [runLimiter, List.nil_append, hstep, hlen1]

/-- C9 witness: 101 requests all at time 0. -/
theorem C9_rate_limiter_boundary_witness :
    ∃ r : ℤ, 1 ≤ r ∧
      (runLimiter 100 60 [] (List.replicate 101 (0 : ℚ))).1 =
        List.replicate 100 (some ⟨false, none⟩) ++ [some ⟨true, some r⟩] := by
  refine C9_rate_limiter_boundary (List.replicate 101 (0 : ℚ)) (by simp) ?_
  intro x hx y hy
  rw [List.eq_of_mem_replicate hx, List.eq_of_mem_replicate hy]
  norm_num

/-! ### C7 — extractive summary -/

/-- C7 counterexample: `"A.  B."` has two sentences (≤ 3), but
`generate_summary` returns `"A. B."` — the stripped sentences rejoined
with single spaces — not the text unchanged. -/
theorem C7_counterexample :
    (extractSentences "A.  B.").length ≤ 3 ∧
    generateSummary "A.  B." 3 ≠ "A.  B." :=
  ⟨by decide, by decide⟩

/-- C7 amended: when the text has at most `max_sentences` sentences,
`generate_summary` returns the extracted (stripped) sentences rejoined
with single spaces — the text unchanged only up to whitespace
normalisation; for longer texts it returns, in original order, exactly
those sentences selected among the `max_sentences` top-scoring under
the stable descending sort by keyword score, and when the sentences
are pairwise distinct the summary consists of exactly `max_sentences`
sentences. -/
theorem C7_generate_summary :
    (∀ (text : String) (maxS : ℕ),
      (extractSentences text).length ≤ maxS →
      generateSummary text maxS = joinSpace (extractSentences text)) ∧
    (∀ (text : String) (maxS : ℕ),
      maxS < (extractSentences text).length →
      ∃ kept : List String,
        generateSummary text maxS = joinSpace kept ∧
        kept.Sublist (extractSentences text) ∧
        (∀ s, s ∈ kept ↔ s ∈ extractSentences text ∧
          s ∈ topSentences (extractSentences text) (extractKeywords text 20) maxS) ∧
        ((extractSentences text).Nodup → kept.length = maxS)) := by
  constructor
  · intro text maxS h
    by_cases h0 : text = ""
    · subst h0
      rfl
    · simp only [generateSummary]
      rw [if_neg h0]
      by_cases h1 : (extractSentences text).isEmpty
      · rw [if_pos h1, List.isEmpty_iff.mp h1]
        rfl
      · rw [if_neg h1, if_pos h]
  · intro text maxS h
    have h0 : text ≠ "" := by
      intro he
      rw [he] at h
      have he2 : extractSentences "" = [] := rfl
      rw [he2] at h
      simp at h
    have h1 : ¬ (extractSentences text).isEmpty = true := by
      intro h1
      rw [List.isEmpty_iff.mp h1] at h
      simp at h
    refine ⟨(extractSentences text).filter
      (fun s => decide (s ∈ topSentences (extractSentences text)
        (extractKeywords text 20) maxS)), ?_, List.filter_sublist _, ?_, ?_⟩
    · simp only [generateSummary]
      rw [if_neg h0, if_neg h1, if_neg (by omega :
        ¬ (extractSentences text).length ≤ maxS)]
    · intro s
      simp [List.mem_filter]
    · intro hnod
      have hperm : List.Perm
          (sortByScoreDesc ((extractSentences text).map
            (fun s => (s, sentenceScore (extractKeywords text 20) s))))
          ((extractSentences text).map
            (fun s => (s, sentenceScore (extractKeywords text 20) s))) :=
        List.perm_insertionSort _ _
      have hfst : List.Perm
          ((sortByScoreDesc ((extractSentences text).map
            (fun s => (s, sentenceScore (extractKeywords text 20) s)))).map
            (fun p => p.1))
          (extractSentences text) := by
        have h2 := hperm.map (fun p : String × ℚ => p.1)
        have h3 : (((extractSentences text).map
            (fun s => (s, sentenceScore (extractKeywords text 20) s))).map
            (fun p : String × ℚ => p.1)) = extractSentences text := by
          rw [List.map_map]
          exact List.map_id' _
        rw [h3] at h2
        exact h2
      have hnodup2 : ((sortByScoreDesc ((extractSentences text).map
          (fun s => (s, sentenceScore (extractKeywords text 20) s)))).map
          (fun p => p.1)).Nodup := hfst.nodup_iff.mpr hnod
      have htop : topSentences (extractSentences text) (extractKeywords text 20) maxS =
          ((sortByScoreDesc ((extractSentences text).map
            (fun s => (s, sentenceScore (extractKeywords text 20) s)))).map
            (fun p => p.1)).take maxS := by
        simp only [topSentences]
        exact List.map_take _ _ _
      have htopnodup : (topSentences (extractSentences text)
          (extractKeywords text 20) maxS).Nodup := by
        rw [htop]
        exact (List.take_sublist _ _).nodup hnodup2
      have htoplen : (topSentences (extractSentences text)
          (extractKeywords text 20) maxS).length = maxS := by
        rw [htop, List.length_take, hfst.length_eq]
        omega
      have htopsub : ∀ s ∈ topSentences (extractSentences text)
          (extractKeywords text 20) maxS, s ∈ extractSentences text := by
        intro s hs
        rw [htop] at hs
        exact hfst.mem_iff.mp ((List.take_sublist _ _).subset hs)
      have hkept : List.Perm
          ((extractSentences text).filter
            (fun s => decide (s ∈ topSentences (extractSentences text)
              (extractKeywords text 20) maxS)))
          (topSentences (extractSentences text) (extractKeywords text 20) maxS) := by
        apply (List.perm_ext_iff_of_nodup (hnod.filter _) htopnodup).mpr
        intro s
        simp only [List.mem_filter, decide_eq_true_eq]
        constructor
        · rintro ⟨_, h2⟩
          exact h2
        · intro h2
          exact ⟨htopsub s h2, h2⟩
      rw [hkept.length_eq, htoplen]

/-- C7 witness: the short-text half on a two-sentence text with
`max_sentences = 5`; the long-text half on a four-sentence text with
`max_sentences = 3`. -/
theorem C7_generate_summary_witness :
    generateSummary "A. B." 5 = joinSpace (extractSentences "A. B.") ∧
    ∃ kept : List String,
      generateSummary "Aa bb. Cc dd. Ee ff. Gg hh." 3 = joinSpace kept ∧
      kept.Sublist (extractSentences "Aa bb. Cc dd. Ee ff. Gg hh.") ∧
      (∀ s, s ∈ kept ↔ s ∈ extractSentences "Aa bb. Cc dd. Ee ff. Gg hh." ∧
        s ∈ topSentences (extractSentences "Aa bb. Cc dd. Ee ff. Gg hh.")
          (extractKeywords "Aa bb. Cc dd. Ee ff. Gg hh." 20) 3) ∧
      ((extractSentences "Aa bb. Cc dd. Ee ff. Gg hh.").Nodup → kept.length = 3) :=
  ⟨C7_generate_summary.1 "A. B." 5 (by decide),
   C7_generate_summary.2 "Aa bb. Cc dd. Ee ff. Gg hh." 3 (by decide)⟩

end Oracul


